import Mathlib

/-!
Verification of the portfolio intraday monitor pipeline
(source: src/monitor/update.py).

Shallow embedding conventions:
* Python floats are modelled as rationals (ℚ); nullable values as Option.
* The two external providers (yfinance market data, GDELT news) are opaque
  services: each run takes the provider response functions as parameters.
  The market provider response is `Option (List (Option Candle))`:
  `none` models a `None`/failed download (yfinance returns an empty frame
  on per-ticker fetch errors, folded into `none`/`some []` here), and a
  `none` row models a row dropped by `df.dropna()`.
  The news provider response is `Except String (Option ArticleFrame)`:
  `Except.error` models `gd.article_search` raising, `Option` models a
  `None`/empty result, and `ArticleFrame.has_seendate` models whether the
  returned table has a `seendate` column.
* `float(...)` (a Python builtin, not repository code) is an opaque
  parameter `parseFloat : String → Option ℚ`; `none` models it raising.
* The timestamp relabelling `index[-1].to_pydatetime().replace(tzinfo=utc)
  .isoformat()` is datetime-library behaviour; `Candle.ts` carries the
  resulting ISO string directly.
* Writing `data/latest.json` is out of scope; the produced `RunReport`
  value is the output document.
* The Python string methods the source uses — `split(",")`, `strip()`,
  `upper()` — are standard-library behaviour, modelled here by the
  structurally recursive `pySplitComma`, `pyStrip` and `pyUpper`
  (ASCII-faithful; Unicode corner cases of `upper`/`strip` are out of
  scope).
-/

/-- `DEFAULT_TICKERS = ["NTSK", "KLAR", "FIG", "NAVN"]`. -/
def DEFAULT_TICKERS : List String := ["NTSK", "KLAR", "FIG", "NAVN"]

/-- One intraday 5-minute candle after cleaning: the columns the code
reads (`Open`, `Close`) plus the row timestamp already rendered as the
UTC-relabelled ISO string. -/
structure Candle where
  openPrice : ℚ
  close : ℚ
  ts : String
deriving Repr, DecidableEq

/-- A news provider row; each field is optional because the code reads it
with `r.get(field, "")`. -/
structure Article where
  title : Option String
  url : Option String
  seendate : Option String
  domain : Option String
deriving Repr, DecidableEq

/-- The tabular result of `gd.article_search`: whether the `seendate`
column is present, and the rows in provider order. -/
structure ArticleFrame where
  has_seendate : Bool
  rows : List Article
deriving Repr, DecidableEq

/-- An element of a snapshot `news` list: either a reduced article
`{title, url, seendate, domain}` or the `{error: msg}` item produced on
provider failure. -/
inductive NewsItem where
  | item (title url seendate domain : String)
  | error (msg : String)
deriving Repr, DecidableEq

/-- A per-ticker snapshot dict. The source builds either
`{ticker, open, last, pct, last_timestamp_utc}` or `{ticker, error}`;
absent keys are `none` here (the code reads them with `.get`). The
`news` key is added in `main`; it starts as `[]` here. The source key
`open` is a Lean keyword, hence the field name `openPrice`. -/
structure TickerSnapshot where
  ticker : String
  openPrice : Option ℚ
  last : Option ℚ
  pct : Option ℚ
  last_timestamp_utc : Option String
  error : Option String
  news : List NewsItem
deriving Repr, DecidableEq

/-- The output document written to `data/latest.json`. -/
structure RunReport where
  generated_at_utc : String
  tickers : List String
  portfolio_pct : Option ℚ
  threshold_pct : ℚ
  items : List TickerSnapshot
deriving Repr, DecidableEq

/-- `pct_change(open_price, last_price)`:
returns `None` when either input is `None` or `open_price == 0`,
otherwise `(last - open) / open * 100.0`. -/
def pct_change (open_price last_price : Option ℚ) : Option ℚ :=
  match open_price, last_price with
  | some o, some l => if o = 0 then none else some ((l - o) / o * 100)
  | _, _ => none

/-- `fetch_intraday(ticker)` applied to the market provider response for
that ticker. `none` response or empty frame yields the first error
snapshot; a frame that is empty after `dropna()` (`List.filterMap id`)
yields the second; otherwise open of the first row, close of the last
row, percent change, and last-row timestamp. -/
def fetch_intraday (ticker : String) (resp : Option (List (Option Candle))) :
    TickerSnapshot :=
  match resp with
  | none =>
      { ticker := ticker, openPrice := none, last := none, pct := none,
        last_timestamp_utc := none,
        error := some "Sem dados intraday (ticker pode não existir na fonte).",
        news := [] }
  | some raw =>
      if raw.isEmpty then
        { ticker := ticker, openPrice := none, last := none, pct := none,
          last_timestamp_utc := none,
          error := some "Sem dados intraday (ticker pode não existir na fonte).",
          news := [] }
      else
        match raw.filterMap id with
        | [] =>
            { ticker := ticker, openPrice := none, last := none, pct := none,
              last_timestamp_utc := none,
              error := some "Sem candles válidos após limpeza.",
              news := [] }
        | first :: rest =>
            let lastC := (first :: rest).getLast (List.cons_ne_nil _ _)
            { ticker := ticker,
              openPrice := some first.openPrice,
              last := some lastC.close,
              pct := pct_change (some first.openPrice) (some lastC.close),
              last_timestamp_utc := some lastC.ts,
              error := none,
              news := [] }

/-- Sort key used by `sort_values("seendate", ascending=False)`; a row
without the field reads as the empty string via `r.get`. -/
def seendateKey (a : Article) : String :=
  a.seendate.getD ""

/-- `articles.sort_values("seendate", ascending=False)`: rows ordered by
descending seendate. -/
def sortBySeendateDesc (rows : List Article) : List Article :=
  List.insertionSort (fun a b => seendateKey b ≤ seendateKey a) rows

/-- Reduction of one provider row:
`{"title": r.get("title",""), "url": r.get("url",""),
  "seendate": str(r.get("seendate","")), "domain": r.get("domain","")}`. -/
def reduceArticle (a : Article) : NewsItem :=
  NewsItem.item (a.title.getD "") (a.url.getD "") (a.seendate.getD "")
    (a.domain.getD "")

/-- `fetch_news_gdelt(query, hours_back, max_n)` applied to the news
provider response for that query. `query` and `hours_back` only shape
the outbound `Filters`, so they do not appear in this pure transform.
An exception anywhere in the `try` block yields the single error item;
a `None` or empty result yields `[]`; otherwise sort by seendate
descending when the column exists, keep the first `max_n`, reduce each
row. -/
def fetch_news_gdelt (resp : Except String (Option ArticleFrame))
    (max_n : Nat := 5) : List NewsItem :=
  match resp with
  | Except.error e =>
      [NewsItem.error ("Falha ao buscar notícias no GDELT: " ++ e)]
  | Except.ok none => []
  | Except.ok (some frame) =>
      if frame.rows.isEmpty then []
      else
        let sorted :=
          if frame.has_seendate then sortBySeendateDesc frame.rows
          else frame.rows
        (sorted.take max_n).map reduceArticle

/-- Python `str.split(",")` on the character list: splits at every
comma, keeping empty segments (so the empty string yields `[""]`). -/
def splitCharsComma : List Char → List Char → List (List Char)
  | [], cur => [cur.reverse]
  | c :: rest, cur =>
      if c = ',' then cur.reverse :: splitCharsComma rest []
      else splitCharsComma rest (c :: cur)

/-- Python `s.split(",")`. -/
def pySplitComma (s : String) : List String :=
  (splitCharsComma s.data []).map List.asString

/-- Python `s.strip()`: whitespace removed from both ends. -/
def pyStrip (s : String) : String :=
  ((s.data.dropWhile Char.isWhitespace).reverse.dropWhile
    Char.isWhitespace).reverse.asString

/-- Python `s.upper()`. -/
def pyUpper (s : String) : String :=
  (s.data.map Char.toUpper).asString

/-- `[t.strip().upper() for t in tickers_env.split(",") if t.strip()] or
DEFAULT_TICKERS`. -/
def resolveTickers (tickers_env : String) : List String :=
  let ts := (pySplitComma tickers_env).filterMap fun t =>
    if pyStrip t = "" then none else some (pyUpper (pyStrip t))
  if ts.isEmpty then DEFAULT_TICKERS else ts

/-- `[float(x.strip()) for x in ...]` under the surrounding
`try`/`except`: `none` as soon as one entry fails to parse. -/
def parseAll (parseFloat : String → Option ℚ) : List String → Option (List ℚ)
  | [] => some []
  | x :: rest =>
      match parseFloat (pyStrip x) with
      | none => none
      | some v =>
          match parseAll parseFloat rest with
          | none => none
          | some vs => some (v :: vs)

/-- The `WEIGHTS` block of `main`: `weights` stays `None` unless the
variable is non-empty (Python truthiness), every comma-separated entry
parses as a float, the count equals the ticker count and the sum is
positive; then each weight is divided by the sum. A parse failure
(`parseFloat` returning `none`, modelling `float` raising) is caught by
the bare `except`. -/
def parseWeights (parseFloat : String → Option ℚ) (weights_env : String)
    (tickers : List String) : Option (List ℚ) :=
  if weights_env = "" then none
  else
    match parseAll parseFloat (pySplitComma weights_env) with
    | none => none
    | some w =>
        if w.length = tickers.length ∧ 0 < w.sum then
          some (w.map fun x => x / w.sum)
        else none

/-- Python truthiness of the `weights` value in
`if weights and len(valid_pcts) == len(tickers)`. -/
def weightsTruthy : Option (List ℚ) → Bool
  | none => false
  | some w => !w.isEmpty

/-- `valid_pcts = [it["pct"] for it in items if it.get("pct") is not None]`. -/
def valid_pcts (items : List TickerSnapshot) : List ℚ :=
  items.filterMap TickerSnapshot.pct

/-- `sum(weights[i] * items[i]["pct"] for i in range(len(tickers)))`.
At the call site `weights` and `items` both have length
`len(tickers)` and every `pct` key is present (the branch guard forces
`len(valid_pcts) == len(tickers)`), so zipping the two lists and reading
`pct` with default 0 computes the same sum. -/
def weightedSum (weights : List ℚ) (items : List TickerSnapshot) : ℚ :=
  (List.zipWith (fun w it => w * it.pct.getD 0) weights items).sum

/-- The portfolio aggregation block of `main`. -/
def portPct (weights : Option (List ℚ)) (tickers : List String)
    (items : List TickerSnapshot) : Option ℚ :=
  if weightsTruthy weights = true ∧ (valid_pcts items).length = tickers.length
  then some (weightedSum (weights.getD []) items)
  else if (valid_pcts items).isEmpty then none
  else some ((valid_pcts items).sum / ((valid_pcts items).length : ℚ))

/-- The news-enrichment step of `main` for one snapshot; the second
component counts the outbound news queries issued for this ticker
(1 when `fetch_news_gdelt` is called, 0 otherwise). -/
def enrichNews (nr : String → Except String (Option ArticleFrame))
    (it : TickerSnapshot) : TickerSnapshot × Nat :=
  match it.pct with
  | some p =>
      if 5 ≤ |p| then
        ({ it with news := fetch_news_gdelt (nr it.ticker) 5 }, 1)
      else ({ it with news := [] }, 0)
  | none => ({ it with news := [] }, 0)

/-- The `weights` value computed by `main` from the environment. -/
def runWeights (parseFloat : String → Option ℚ)
    (weights_env tickers_env : String) : Option (List ℚ) :=
  parseWeights parseFloat weights_env (resolveTickers tickers_env)

/-- The `items` list accumulated by the fetch loop of `main`
(before news enrichment). -/
def runItems (mr : String → Option (List (Option Candle)))
    (tickers_env : String) : List TickerSnapshot :=
  (resolveTickers tickers_env).map fun t => fetch_intraday t (mr t)

/-- `main()` as a pure function of the environment (`TICKERS`,
`WEIGHTS`), the two provider response functions, the float parser and
the wall-clock reading `now` (`now_utc_iso()`); the result is the
document dumped to `data/latest.json`. -/
def mainRun (parseFloat : String → Option ℚ)
    (mr : String → Option (List (Option Candle)))
    (nr : String → Except String (Option ArticleFrame))
    (tickers_env weights_env now : String) : RunReport :=
  let tickers := resolveTickers tickers_env
  let weights := runWeights parseFloat weights_env tickers_env
  let items := runItems mr tickers_env
  let port := portPct weights tickers items
  let enriched := items.map fun it => (enrichNews nr it).1
  { generated_at_utc := now,
    tickers := tickers,
    portfolio_pct := port,
    threshold_pct := 5,
    items := enriched }

/-- Total number of news queries issued during a run. -/
def newsQueryCount (mr : String → Option (List (Option Candle)))
    (nr : String → Except String (Option ArticleFrame))
    (tickers_env : String) : Nat :=
  ((resolveTickers tickers_env).map fun t =>
    (enrichNews nr (fetch_intraday t (mr t))).2).sum

/-! ## Helper lemmas -/

lemma fetch_intraday_ticker (t : String) (resp : Option (List (Option Candle))) :
    (fetch_intraday t resp).ticker = t := by
  unfold fetch_intraday
  cases resp with
  | none => rfl
  | some raw =>
      dsimp only
      split
      · rfl
      · split <;> rfl

lemma enrichNews_fst_ticker (nr : String → Except String (Option ArticleFrame))
    (it : TickerSnapshot) : ((enrichNews nr it).1).ticker = it.ticker := by
  unfold enrichNews
  cases it.pct with
  | none => rfl
  | some p =>
      dsimp only
      split <;> rfl

lemma enrichNews_fst_pct (nr : String → Except String (Option ArticleFrame))
    (it : TickerSnapshot) : ((enrichNews nr it).1).pct = it.pct := by
  unfold enrichNews
  cases h : it.pct with
  | none => rfl
  | some p =>
      dsimp only
      split <;> simp [h]

lemma runItems_length (mr : String → Option (List (Option Candle)))
    (tenv : String) :
    (runItems mr tenv).length = (resolveTickers tenv).length := by
  simp [runItems]

lemma resolveTickers_ne_nil (tenv : String) : resolveTickers tenv ≠ [] := by
  unfold resolveTickers
  dsimp only
  split
  · simp [DEFAULT_TICKERS]
  · next h => exact fun hc => h (by simp [hc])

lemma valid_pcts_length_le (items : List TickerSnapshot) :
    (valid_pcts items).length ≤ items.length :=
  List.length_filterMap_le _ _

lemma valid_pcts_length_eq_iff (items : List TickerSnapshot) :
    (valid_pcts items).length = items.length ↔ ∀ it ∈ items, it.pct ≠ none := by
  induction items with
  | nil => simp [valid_pcts]
  | cons a l ih =>
      cases h : a.pct with
      | none =>
          simp only [valid_pcts, List.filterMap_cons, h]
          constructor
          · intro hlen
            have hle := valid_pcts_length_le l
            simp only [valid_pcts] at hle
            rw [List.length_cons] at hlen
            omega
          · intro hall
            exact absurd h (hall a (List.mem_cons_self a l))
      | some p =>
          simp only [valid_pcts, List.filterMap_cons, h, List.length_cons]
          constructor
          · intro hlen it hit
            rcases List.mem_cons.mp hit with rfl | hm
            · simp [h]
            · exact (ih.mp (by simpa [valid_pcts] using Nat.succ_injective hlen)) it hm
          · intro hall
            have := ih.mpr fun it hit => hall it (List.mem_cons_of_mem _ hit)
            simpa [valid_pcts] using congrArg Nat.succ this

lemma sum_map_div (l : List ℚ) (s : ℚ) :
    (l.map fun x => x / s).sum = l.sum / s := by
  induction l with
  | nil => simp
  | cons a l ih => simp [ih, add_div]

/-! ## Claim theorems -/

/-- C3: `pct_change` returns `(last - open) / open * 100` whenever both
inputs are present and `open` is nonzero, returns `none` when either
input is `none` or `open` is zero, and on the concrete examples gives
`5`, `-5` and `none`. -/
theorem pct_change_spec :
    (∀ o l : ℚ, o ≠ 0 →
        pct_change (some o) (some l) = some ((l - o) / o * 100))
    ∧ (∀ l, pct_change none l = none)
    ∧ (∀ o, pct_change o none = none)
    ∧ (∀ l, pct_change (some 0) l = none)
    ∧ pct_change (some 100) (some 105) = some 5
    ∧ pct_change (some 100) (some 95) = some (-5)
    ∧ pct_change (some 0) (some 95) = none := by
  refine ⟨fun o l h => by simp [pct_change, h], fun l => rfl,
    fun o => by cases o <;> rfl, fun l => by cases l <;> simp [pct_change],
    by norm_num [pct_change], by norm_num [pct_change], by simp [pct_change]⟩

/-- Witness for C3: the guard `open ≠ 0` discharged at `open = 100`,
`last = 105`. -/
theorem pct_change_spec_witness :
    (100 : ℚ) ≠ 0
    ∧ pct_change (some 100) (some 105) = some ((105 - 100) / 100 * 100) :=
  ⟨by norm_num, pct_change_spec.1 100 105 (by norm_num)⟩

/-- C9: two runs differing only in the wall-clock reading produce
reports identical in every field except `generated_at_utc`, which is
exactly the clock reading. -/
theorem run_deterministic_modulo_clock
    (pf : String → Option ℚ) (mr : String → Option (List (Option Candle)))
    (nr : String → Except String (Option ArticleFrame))
    (tenv wenv now₁ now₂ : String) :
    (mainRun pf mr nr tenv wenv now₁).tickers =
      (mainRun pf mr nr tenv wenv now₂).tickers
    ∧ (mainRun pf mr nr tenv wenv now₁).portfolio_pct =
      (mainRun pf mr nr tenv wenv now₂).portfolio_pct
    ∧ (mainRun pf mr nr tenv wenv now₁).threshold_pct =
      (mainRun pf mr nr tenv wenv now₂).threshold_pct
    ∧ (mainRun pf mr nr tenv wenv now₁).items =
      (mainRun pf mr nr tenv wenv now₂).items
    ∧ (mainRun pf mr nr tenv wenv now₁).generated_at_utc = now₁ :=
  ⟨rfl, rfl, rfl, rfl, rfl⟩

/-- C5: the report's `items` list has the same length as the resolved
ticker list and the i-th snapshot carries the i-th ticker
(`items.map ticker` is the ticker list itself). -/
theorem items_align_with_tickers
    (pf : String → Option ℚ) (mr : String → Option (List (Option Candle)))
    (nr : String → Except String (Option ArticleFrame))
    (tenv wenv now : String) :
    (mainRun pf mr nr tenv wenv now).items.length =
      (resolveTickers tenv).length
    ∧ (mainRun pf mr nr tenv wenv now).items.map TickerSnapshot.ticker =
      resolveTickers tenv := by
  constructor
  · simp [mainRun, runItems]
  · show ((runItems mr tenv).map fun it => (enrichNews nr it).1).map
        TickerSnapshot.ticker = resolveTickers tenv
    unfold runItems
    induction resolveTickers tenv with
    | nil => rfl
    | cons a l ih =>
        simpa [enrichNews_fst_ticker, fetch_intraday_ticker] using ih

/-- C1: when the market provider response for a ticker is `none`, an
empty frame, or a frame with no valid rows after cleaning, the snapshot
for that ticker carries the ticker and an `error` message with every
price field absent — and the run still produces one item per resolved
ticker, so a single-ticker fetch failure never aborts the run. -/
theorem fetch_failure_captured_run_continues
    (pf : String → Option ℚ) (mr : String → Option (List (Option Candle)))
    (nr : String → Except String (Option ArticleFrame))
    (tenv wenv now t : String)
    (hfail : mr t = none ∨ ∃ raw, mr t = some raw ∧ raw.filterMap id = []) :
    (fetch_intraday t (mr t)).ticker = t
    ∧ ((fetch_intraday t (mr t)).error).isSome = true
    ∧ (fetch_intraday t (mr t)).openPrice = none
    ∧ (fetch_intraday t (mr t)).last = none
    ∧ (fetch_intraday t (mr t)).pct = none
    ∧ (mainRun pf mr nr tenv wenv now).items.length =
        (resolveTickers tenv).length := by
  have hlen : (mainRun pf mr nr tenv wenv now).items.length =
      (resolveTickers tenv).length := by
    simp [mainRun, runItems]
  rcases hfail with h | ⟨raw, hm, hf⟩
  · rw [h]
    exact ⟨rfl, rfl, rfl, rfl, rfl, hlen⟩
  · rw [hm]
    unfold fetch_intraday
    by_cases he : raw.isEmpty
    · simp [he, hlen]
    · simp only [he, if_false, hf]
      exact ⟨rfl, rfl, rfl, rfl, rfl, hlen⟩

/-- A market provider that always fails, used to witness C1. -/
def mrNone : String → Option (List (Option Candle)) := fun _ => none

/-- A float parser used in witnesses: parses the few literals the
witnesses need, rejects everything else (in particular the empty
string, as Python `float("")` raises). -/
def pf0 : String → Option ℚ := fun s =>
  if s = "1" then some 1
  else if s = "2" then some 2
  else if s = "3" then some 3
  else none

/-- A news provider returning an empty result, used in witnesses. -/
def nr0 : String → Except String (Option ArticleFrame) := fun _ => Except.ok none

/-- A market provider returning one valid candle with a 6% rise, used
in witnesses. -/
def mr0 : String → Option (List (Option Candle)) := fun _ =>
  some [some ⟨100, 106, "2024-01-02T15:55:00+00:00"⟩]

/-- Witness for C1: the failure hypothesis discharged with a provider
that returns no data. -/
theorem fetch_failure_captured_run_continues_witness :
    (mrNone "NTSK" = none
      ∨ ∃ raw, mrNone "NTSK" = some raw ∧ raw.filterMap id = [])
    ∧ ((fetch_intraday "NTSK" (mrNone "NTSK")).error).isSome = true :=
  ⟨Or.inl rfl,
    (fetch_failure_captured_run_continues pf0 mrNone nr0 "" "" "t" "NTSK"
      (Or.inl rfl)).2.1⟩

/-- C4: the report items are exactly the enrichment of the fetched
snapshots; exactly one news query is issued for a snapshot iff its
`pct` is present with absolute value at least 5; otherwise (including
error snapshots, whose `pct` is absent) no query is issued and the
news list is empty. -/
theorem news_query_iff_threshold
    (pf : String → Option ℚ) (mr : String → Option (List (Option Candle)))
    (nr : String → Except String (Option ArticleFrame))
    (tenv wenv now : String) :
    ((mainRun pf mr nr tenv wenv now).items =
      (resolveTickers tenv).map fun t =>
        (enrichNews nr (fetch_intraday t (mr t))).1)
    ∧ (∀ it : TickerSnapshot,
        ((enrichNews nr it).2 = 1 ↔ ∃ p, it.pct = some p ∧ 5 ≤ |p|))
    ∧ (∀ it : TickerSnapshot, (enrichNews nr it).2 = 0 ∨ (enrichNews nr it).2 = 1)
    ∧ (∀ it : TickerSnapshot, (enrichNews nr it).2 = 0 →
        (enrichNews nr it).1.news = []) := by
  refine ⟨?_, ?_, ?_, ?_⟩
  · simp [mainRun, runItems, List.map_map, Function.comp]
  · intro it
    unfold enrichNews
    cases h : it.pct with
    | none => simp
    | some q =>
        by_cases hq : 5 ≤ |q|
        · simp [hq]
        · simp [hq]
  · intro it
    unfold enrichNews
    cases it.pct with
    | none => simp
    | some q =>
        dsimp only
        split <;> simp
  · intro it
    unfold enrichNews
    cases it.pct with
    | none => simp
    | some q =>
        dsimp only
        split <;> simp

/-- Witness for C4: a 6% snapshot issues exactly one query; an error
snapshot issues none and keeps `news = []`. -/
theorem news_query_iff_threshold_witness :
    ((enrichNews nr0 (fetch_intraday "AAA" (mr0 "AAA"))).2 = 1 ↔
      ∃ p, (fetch_intraday "AAA" (mr0 "AAA")).pct = some p ∧ 5 ≤ |p|)
    ∧ ((enrichNews nr0 (fetch_intraday "NTSK" (mrNone "NTSK"))).2 = 0 →
        (enrichNews nr0 (fetch_intraday "NTSK" (mrNone "NTSK"))).1.news = []) :=
  ⟨(news_query_iff_threshold pf0 mr0 nr0 "" "" "t").2.1 _,
    (news_query_iff_threshold pf0 mr0 nr0 "" "" "t").2.2.2 _⟩


/-- C6: given that the empty string does not parse as a float (Python
`float("")` raises), weights are accepted iff every comma-separated
entry parses, the count equals the ticker count and the sum is
strictly positive; an accepted weight list is the parsed list divided
entrywise by its sum and therefore sums to 1; every other input
silently yields no weights. -/
theorem weights_acceptance_iff
    (parseFloat : String → Option ℚ) (hefl : parseFloat "" = none)
    (wenv : String) (tickers : List String) :
    ((parseWeights parseFloat wenv tickers).isSome = true ↔
      ∃ w : List ℚ,
        parseAll parseFloat (pySplitComma wenv) = some w
        ∧ w.length = tickers.length ∧ 0 < w.sum)
    ∧ (∀ nw, parseWeights parseFloat wenv tickers = some nw →
        ∃ w : List ℚ,
          parseAll parseFloat (pySplitComma wenv) = some w
          ∧ w.length = tickers.length ∧ 0 < w.sum
          ∧ nw = w.map (fun x => x / w.sum) ∧ nw.sum = 1) := by
  unfold parseWeights
  by_cases hw : wenv = ""
  · subst hw
    have hnone : parseAll parseFloat (pySplitComma "") = none := by
      show parseAll parseFloat [""] = none
      unfold parseAll
      rw [show pyStrip "" = "" from rfl, hefl]
    rw [if_pos rfl]
    refine ⟨?_, ?_⟩
    · rw [hnone]
      simp
    · intro nw hnw
      exact absurd hnw (by simp)
  · rw [if_neg hw]
    cases hm : parseAll parseFloat (pySplitComma wenv) with
    | none =>
        refine ⟨by simp, ?_⟩
        intro nw hnw
        exact absurd hnw (by simp)
    | some w =>
        dsimp only
        by_cases hc : w.length = tickers.length ∧ 0 < w.sum
        · rw [if_pos hc]
          refine ⟨?_, ?_⟩
          · simp only [Option.isSome_some, true_iff]
            exact ⟨w, rfl, hc.1, hc.2⟩
          · intro nw hnw
            refine ⟨w, rfl, hc.1, hc.2, (Option.some_inj.mp hnw).symm, ?_⟩
            rw [← Option.some_inj.mp hnw, sum_map_div,
              div_self (ne_of_gt hc.2)]
        · rw [if_neg hc]
          refine ⟨?_, ?_⟩
          · simp only [Option.isSome_none, Bool.false_eq_true, false_iff]
            rintro ⟨v, hv, hlen, hsum⟩
            exact hc (by rw [Option.some_inj.mp hv]; exact ⟨hlen, hsum⟩)
          · intro nw hnw
            exact absurd hnw (by simp)

/-- Witness for C6: the parser hypothesis discharged with `pf0`, at the
environment value `"1,3"` for two tickers. -/
theorem weights_acceptance_iff_witness :
    pf0 "" = none
    ∧ ((parseWeights pf0 "1,3" ["A", "B"]).isSome = true ↔
      ∃ w : List ℚ,
        parseAll pf0 (pySplitComma "1,3") = some w
        ∧ w.length = (["A", "B"] : List String).length ∧ 0 < w.sum) :=
  ⟨rfl, (weights_acceptance_iff pf0 rfl "1,3" ["A", "B"]).1⟩

/-- Branch analysis of the portfolio aggregation block, for any state
with one item per ticker and a non-empty ticker list (both hold in
every run). -/
lemma portPct_cases (weights : Option (List ℚ)) (tickers : List String)
    (items : List TickerSnapshot)
    (hlen : items.length = tickers.length) (hne : tickers ≠ []) :
    ((weightsTruthy weights = true ∧ ∀ it ∈ items, it.pct ≠ none) →
      portPct weights tickers items = some (weightedSum (weights.getD []) items))
    ∧ (¬(weightsTruthy weights = true ∧ ∀ it ∈ items, it.pct ≠ none) →
      portPct weights tickers items =
        (if (valid_pcts items).isEmpty then none
         else some ((valid_pcts items).sum / ((valid_pcts items).length : ℚ))))
    ∧ (portPct weights tickers items = none ↔ valid_pcts items = []) := by
  have hiff : (valid_pcts items).length = tickers.length ↔
      ∀ it ∈ items, it.pct ≠ none := by
    rw [← hlen]
    exact valid_pcts_length_eq_iff items
  unfold portPct
  by_cases hc : weightsTruthy weights = true ∧
      (valid_pcts items).length = tickers.length
  · rw [if_pos hc]
    refine ⟨fun _ => rfl, fun hcon => absurd ⟨hc.1, hiff.mp hc.2⟩ hcon, ?_⟩
    constructor
    · intro h
      exact absurd h (by simp)
    · intro hnil
      exfalso
      have h0 : tickers.length = 0 := by
        rw [← hc.2, hnil]
        rfl
      exact hne (List.length_eq_zero.mp h0)
  · rw [if_neg hc]
    refine ⟨fun hall => absurd ⟨hall.1, hiff.mpr hall.2⟩ hc, fun _ => rfl, ?_⟩
    by_cases hv : (valid_pcts items).isEmpty
    · rw [if_pos hv]
      simp [List.isEmpty_iff.mp hv]
    · rw [if_neg hv]
      constructor
      · intro h
        exact absurd h (by simp)
      · intro hnil
        exact absurd (by rw [hnil]; rfl) hv

/-- C2: in every run, the portfolio percent change is the weighted sum
`Σ weight[i] * pct[i]` exactly when weights were accepted (and, per
Python truthiness, non-empty) and every ticker produced a `pct`;
otherwise it is the arithmetic mean of the non-null `pct` values; and
it is absent exactly when no ticker produced a `pct`. -/
theorem portfolio_pct_spec
    (pf : String → Option ℚ) (mr : String → Option (List (Option Candle)))
    (nr : String → Except String (Option ArticleFrame))
    (tenv wenv now : String) :
    ((weightsTruthy (runWeights pf wenv tenv) = true
        ∧ ∀ it ∈ runItems mr tenv, it.pct ≠ none) →
      (mainRun pf mr nr tenv wenv now).portfolio_pct =
        some (weightedSum ((runWeights pf wenv tenv).getD []) (runItems mr tenv)))
    ∧ (¬(weightsTruthy (runWeights pf wenv tenv) = true
        ∧ ∀ it ∈ runItems mr tenv, it.pct ≠ none) →
      (mainRun pf mr nr tenv wenv now).portfolio_pct =
        (if (valid_pcts (runItems mr tenv)).isEmpty then none
         else some ((valid_pcts (runItems mr tenv)).sum /
            ((valid_pcts (runItems mr tenv)).length : ℚ))))
    ∧ ((mainRun pf mr nr tenv wenv now).portfolio_pct = none ↔
        valid_pcts (runItems mr tenv) = []) := by
  have hport : (mainRun pf mr nr tenv wenv now).portfolio_pct =
      portPct (runWeights pf wenv tenv) (resolveTickers tenv)
        (runItems mr tenv) := rfl
  rw [hport]
  exact portPct_cases (runWeights pf wenv tenv) (resolveTickers tenv)
    (runItems mr tenv) (runItems_length mr tenv) (resolveTickers_ne_nil tenv)

/-- Witness for C2: with one ticker, the accepted weight list `[1]` and
a 6% move, the run takes the weighted-sum branch. -/
theorem portfolio_pct_spec_witness :
    (weightsTruthy (runWeights pf0 "1" "AAA") = true
      ∧ ∀ it ∈ runItems mr0 "AAA", it.pct ≠ none)
    ∧ (mainRun pf0 mr0 nr0 "AAA" "1" "t").portfolio_pct =
        some (weightedSum ((runWeights pf0 "1" "AAA").getD [])
          (runItems mr0 "AAA")) := by
  have hw : runWeights pf0 "1" "AAA" = some [1] := by
    unfold runWeights parseWeights
    rw [if_neg (by decide : ¬("1" : String) = "")]
    rw [show parseAll pf0 (pySplitComma "1") = some [1] from rfl]
    dsimp only
    rw [if_pos ⟨rfl, by norm_num⟩]
    norm_num
  have h : weightsTruthy (runWeights pf0 "1" "AAA") = true
      ∧ ∀ it ∈ runItems mr0 "AAA", it.pct ≠ none := by
    constructor
    · rw [hw]
      rfl
    · intro it hit
      rw [show runItems mr0 "AAA" = [fetch_intraday "AAA" (mr0 "AAA")]
        from rfl] at hit
      rw [List.mem_singleton.mp hit]
      simp [fetch_intraday, mr0, pct_change]
  exact ⟨h, (portfolio_pct_spec pf0 mr0 nr0 "AAA" "1" "t").1 h⟩

/-- C7: when the news provider raises, `fetch_news_gdelt` yields exactly
the single-element list `[{error: msg}]`; a triggered ticker whose query
raises gets that list as its news; and the run still produces a full
report (one item per resolved ticker), so the failure never propagates. -/
theorem news_provider_exception_contained
    (pf : String → Option ℚ) (mr : String → Option (List (Option Candle)))
    (nr : String → Except String (Option ArticleFrame))
    (tenv wenv now msg : String) :
    fetch_news_gdelt (Except.error msg) 5 =
      [NewsItem.error ("Falha ao buscar notícias no GDELT: " ++ msg)]
    ∧ (∀ it : TickerSnapshot, (∃ p, it.pct = some p ∧ 5 ≤ |p|) →
        nr it.ticker = Except.error msg →
        (enrichNews nr it).1.news =
          [NewsItem.error ("Falha ao buscar notícias no GDELT: " ++ msg)])
    ∧ (mainRun pf mr nr tenv wenv now).items.length =
        (resolveTickers tenv).length := by
  refine ⟨rfl, ?_, by simp [mainRun, runItems]⟩
  rintro it ⟨p, hp, h5⟩ hn
  unfold enrichNews
  rw [hp]
  dsimp only
  rw [if_pos h5, hn]
  rfl

/-- A news provider that always raises, used in witnesses. -/
def nrErr : String → Except String (Option ArticleFrame) := fun _ =>
  Except.error "boom"

/-- A snapshot with a 6% change, used in witnesses. -/
def snap0 : TickerSnapshot :=
  { ticker := "AAA", openPrice := some 100, last := some 106, pct := some 6,
    last_timestamp_utc := some "2024-01-02T15:55:00+00:00", error := none,
    news := [] }

/-- Witness for C7: the threshold and provider-failure hypotheses
discharged on a concrete 6% snapshot whose news query raises. -/
theorem news_provider_exception_contained_witness :
    (∃ p, snap0.pct = some p ∧ 5 ≤ |p|)
    ∧ (enrichNews nrErr snap0).1.news =
        [NewsItem.error ("Falha ao buscar notícias no GDELT: " ++ "boom")] :=
  ⟨⟨6, rfl, by norm_num⟩,
    (news_provider_exception_contained pf0 mr0 nrErr "" "" "t" "boom").2.1
      snap0 ⟨6, rfl, by norm_num⟩ rfl⟩

/-- C10: an empty or absent news provider result produces `news = []`
for a triggered ticker — the same empty list a below-threshold or
errored ticker gets — so `news = []` does not distinguish the two
situations. -/
theorem empty_news_result_indistinguishable
    (nr : String → Except String (Option ArticleFrame)) :
    fetch_news_gdelt (Except.ok none) 5 = []
    ∧ (∀ b : Bool, fetch_news_gdelt (Except.ok (some ⟨b, []⟩)) 5 = [])
    ∧ (∀ it : TickerSnapshot, (∃ p, it.pct = some p ∧ 5 ≤ |p|) →
        nr it.ticker = Except.ok none →
        (enrichNews nr it).1.news = [])
    ∧ (∀ it : TickerSnapshot,
        (it.pct = none ∨ ∃ p, it.pct = some p ∧ |p| < 5) →
        (enrichNews nr it).1.news = []) := by
  refine ⟨rfl, fun b => rfl, ?_, ?_⟩
  · rintro it ⟨p, hp, h5⟩ hn
    unfold enrichNews
    rw [hp]
    dsimp only
    rw [if_pos h5, hn]
    rfl
  · rintro it (hp | ⟨p, hp, h5⟩)
    · unfold enrichNews
      rw [hp]
    · unfold enrichNews
      rw [hp]
      dsimp only
      rw [if_neg (not_le.mpr h5)]

/-- Witness for C10: a triggered snapshot whose query returns no
articles ends with the same `news = []` as an untriggered one. -/
theorem empty_news_result_indistinguishable_witness :
    (∃ p, snap0.pct = some p ∧ 5 ≤ |p|)
    ∧ (enrichNews nr0 snap0).1.news = [] :=
  ⟨⟨6, rfl, by norm_num⟩,
    (empty_news_result_indistinguishable nr0).2.2.1 snap0
      ⟨6, rfl, by norm_num⟩ rfl⟩

/-- The seendate string carried by a reduced news item. -/
def newsSeendate : NewsItem → String
  | NewsItem.item _ _ sd _ => sd
  | NewsItem.error _ => ""

instance : IsTotal Article (fun a b => seendateKey b ≤ seendateKey a) :=
  ⟨fun a b => Or.symm (le_total (seendateKey a) (seendateKey b))⟩

instance : IsTrans Article (fun a b => seendateKey b ≤ seendateKey a) :=
  ⟨fun _ _ _ h1 h2 => le_trans h2 h1⟩

lemma sortBySeendateDesc_length (rows : List Article) :
    (sortBySeendateDesc rows).length = rows.length :=
  List.length_insertionSort _ rows

lemma sorted_take_map_newsSeendate (rows : List Article) (n : Nat) :
    List.Sorted (fun a b : String => b ≤ a)
      ((((sortBySeendateDesc rows).take n).map reduceArticle).map
        newsSeendate) := by
  have hs : List.Sorted (fun a b => seendateKey b ≤ seendateKey a)
      (sortBySeendateDesc rows) := List.sorted_insertionSort _ rows
  have ht : List.Sorted (fun a b => seendateKey b ≤ seendateKey a)
      ((sortBySeendateDesc rows).take n) :=
    List.Pairwise.sublist (List.take_sublist n _) hs
  rw [List.map_map]
  rw [show newsSeendate ∘ reduceArticle = seendateKey from funext fun a => rfl]
  exact List.Pairwise.map seendateKey (fun a b h => h) ht

/-- C8: for a non-raising provider result, the produced news list keeps
`min 5 n` of the `n` rows; when the seendate column is present it is
the descending-seendate sort of the rows truncated to 5 and reduced
(so the carried seendates are sorted descending); when absent it is
the first 5 rows in provider order, reduced; and every produced item
is the `{title, url, seendate, domain}` reduction (missing fields
defaulting to the empty string) of some provider row. -/
theorem news_results_sorted_truncated_reduced (frame : ArticleFrame) :
    (fetch_news_gdelt (Except.ok (some frame)) 5).length =
      min 5 frame.rows.length
    ∧ (frame.has_seendate = true →
        fetch_news_gdelt (Except.ok (some frame)) 5 =
          ((sortBySeendateDesc frame.rows).take 5).map reduceArticle
        ∧ List.Sorted (fun a b : String => b ≤ a)
            ((fetch_news_gdelt (Except.ok (some frame)) 5).map newsSeendate))
    ∧ (frame.has_seendate = false →
        fetch_news_gdelt (Except.ok (some frame)) 5 =
          (frame.rows.take 5).map reduceArticle)
    ∧ (∀ x ∈ fetch_news_gdelt (Except.ok (some frame)) 5,
        ∃ a ∈ frame.rows, x = reduceArticle a) := by
  unfold fetch_news_gdelt
  dsimp only
  by_cases he : frame.rows.isEmpty
  · have hrows : frame.rows = [] := List.isEmpty_iff.mp he
    rw [if_pos he]
    refine ⟨by rw [hrows]; rfl, ?_, by intro _; rw [hrows]; rfl, by simp⟩
    intro _
    exact ⟨by rw [hrows]; rfl, List.sorted_nil⟩
  · rw [if_neg he]
    cases hsd : frame.has_seendate with
    | true =>
        rw [if_pos rfl]
        refine ⟨?_, fun _ =>
            ⟨rfl, sorted_take_map_newsSeendate frame.rows 5⟩,
          fun h => absurd h (by simp), ?_⟩
        · rw [List.length_map, List.length_take, sortBySeendateDesc_length]
        · intro x hx
          obtain ⟨a, ha, rfl⟩ := List.mem_map.mp hx
          exact ⟨a, (List.mem_insertionSort _).mp (List.take_subset 5 _ ha),
            rfl⟩
    | false =>
        rw [if_neg (by simp)]
        refine ⟨?_, fun h => absurd h (by simp), fun _ => rfl, ?_⟩
        · rw [List.length_map, List.length_take]
        · intro x hx
          obtain ⟨a, ha, rfl⟩ := List.mem_map.mp hx
          exact ⟨a, List.take_subset 5 _ ha, rfl⟩

/-- A concrete three-row frame with unsorted seendates, used to witness
C8. -/
def frame0 : ArticleFrame :=
  { has_seendate := true,
    rows := [⟨some "t1", some "u1", some "20240101", some "d1"⟩,
             ⟨some "t2", none, some "20240103", some "d2"⟩,
             ⟨none, some "u3", some "20240102", some "d3"⟩] }

/-- Witness for C8: the has-seendate hypothesis discharged on `frame0`. -/
theorem news_results_sorted_truncated_reduced_witness :
    frame0.has_seendate = true
    ∧ fetch_news_gdelt (Except.ok (some frame0)) 5 =
        ((sortBySeendateDesc frame0.rows).take 5).map reduceArticle :=
  ⟨rfl, ((news_results_sorted_truncated_reduced frame0).2.1 rfl).1⟩
